import Mathlib

/-!
Verification of the YALS_Lite network-diagnostic service against its
natural-language specification.  The Go sources are shallowly embedded:
pure helpers become Lean functions, the executor's and rate limiter's
state becomes explicit record passing, goroutine races are parameterised
by explicit arrival-order environments, and OS/network effects are
supplied as oracles.
-/

set_option maxRecDepth 8000

namespace YALS

/-- Byte length of a string, mirroring Go's `len(s)` (UTF-8 bytes). -/
def goLen (s : String) : Nat := (s.toList.map Char.utf8Size).sum

/-- Whitespace predicate mirroring Go's `unicode.IsSpace` on the Latin-1
range: space, tab, newline, vertical tab, form feed, carriage return,
NEL (U+0085) and NBSP (U+00A0). -/
def goIsSpace (c : Char) : Bool :=
  c = ' ' || c = '\t' || c = '\n' || c = Char.ofNat 11 || c = Char.ofNat 12 ||
  c = '\r' || c = Char.ofNat 133 || c = Char.ofNat 160

/-- Go `strings.TrimSpace`: drop leading and trailing whitespace. -/
def goTrimSpace (s : String) : String :=
  String.mk (((s.toList.dropWhile goIsSpace).reverse.dropWhile goIsSpace).reverse)

/-- Prefix test on character lists (helper for substring search). -/
def listIsPrefixOf : List Char → List Char → Bool
  | [], _ => true
  | _ :: _, [] => false
  | a :: as, b :: bs => a = b && listIsPrefixOf as bs

/-- Substring occurrence test on character lists. -/
def listContainsSub (pat : List Char) : List Char → Bool
  | [] => pat.isEmpty
  | c :: rest => listIsPrefixOf pat (c :: rest) || listContainsSub pat rest

/-- Go `strings.Contains(s, pat)`. -/
def strContains (s pat : String) : Bool := listContainsSub pat.toList s.toList

/-- Helper for Go `strings.Fields`: accumulate the current field in reverse. -/
def fieldsAux : List Char → List Char → List (List Char)
  | [], acc => if acc.isEmpty then [] else [acc.reverse]
  | c :: rest, acc =>
    if goIsSpace c then
      (if acc.isEmpty then fieldsAux rest [] else acc.reverse :: fieldsAux rest [])
    else fieldsAux rest (c :: acc)

/-- Go `strings.Fields`: split around runs of whitespace. -/
def goFields (s : String) : List (List Char) := fieldsAux s.toList []

/-- Split a character list at the first occurrence of `c`; `none` when `c`
is absent (mirrors Go `strings.Index` returning -1). -/
def breakAtChar (c : Char) : List Char → Option (List Char × List Char)
  | [] => none
  | x :: xs =>
    if x = c then some ([], xs)
    else
      match breakAtChar c xs with
      | none => none
      | some (pre, post) => some (x :: pre, post)

/-- Split a character list at the last occurrence of `c` (mirrors Go
`strings.LastIndex` returning -1 when absent). -/
def breakAtLastChar (c : Char) (l : List Char) : Option (List Char × List Char) :=
  match breakAtChar c l.reverse with
  | none => none
  | some (revPost, revPre) => some (revPre.reverse, revPost.reverse)

/-- Split a character list on every occurrence of a separator character
(mirrors Go `strings.Split` for one-character separators). -/
def splitOnChar (c : Char) : List Char → List (List Char)
  | [] => [[]]
  | x :: xs =>
    if x = c then [] :: splitOnChar c xs
    else
      match splitOnChar c xs with
      | [] => [[x]]
      | g :: gs => (x :: g) :: gs

/-- ASCII letter or digit. -/
def isAlnum (c : Char) : Bool :=
  c.isDigit || ('a' ≤ c && c ≤ 'z') || ('A' ≤ c && c ≤ 'Z')

end YALS

namespace YALS.IPParse

/-- Decimal value of a digit list. -/
def decimalValue (l : List Char) : Nat :=
  l.foldl (fun acc c => acc * 10 + (c.toNat - 48)) 0

/-- One dotted-quad field of Go `net.ParseIP`: one to three decimal digits,
no leading zero, value at most 255. -/
def isV4Field (l : List Char) : Bool :=
  !l.isEmpty && l.length ≤ 3 && l.all Char.isDigit &&
  (l.head? ≠ some '0' || l.length = 1) && decimalValue l ≤ 255

/-- Dotted-quad IPv4 literal as accepted by Go `net.ParseIP`. -/
def isV4Chars (l : List Char) : Bool :=
  match splitOnChar '.' l with
  | [a, b, c, d] => isV4Field a && isV4Field b && isV4Field c && isV4Field d
  | _ => false

/-- One hexadecimal group of an IPv6 literal (one to four hex digits). -/
def isHexGroup (l : List Char) : Bool :=
  !l.isEmpty && l.length ≤ 4 &&
  l.all (fun c => c.isDigit || ('a' ≤ c && c ≤ 'f') || ('A' ≤ c && c ≤ 'F'))

/-- Locate a `::` in an IPv6 literal, returning the parts before and after. -/
def splitDoubleColon : List Char → Option (List Char × List Char)
  | [] => none
  | ':' :: ':' :: rest => some ([], rest)
  | x :: xs =>
    match splitDoubleColon xs with
    | none => none
    | some (pre, post) => some (x :: pre, post)

/-- Whether a character list still contains a `::`. -/
def hasDoubleColon : List Char → Bool
  | [] => false
  | ':' :: ':' :: _ => true
  | _ :: xs => hasDoubleColon xs

/-- Count the 16-bit groups contributed by one side of a `::`-split IPv6
literal; the final group may be an embedded dotted quad (two groups) when
`allowV4` is set.  `none` on malformed input. -/
def v6SideGroups (l : List Char) (allowV4 : Bool) : Option Nat :=
  if l.isEmpty then some 0
  else
    match (splitOnChar ':' l).reverse with
    | [] => none
    | lastGroup :: initRev =>
      if !initRev.all (fun g => isHexGroup g) then none
      else if isHexGroup lastGroup then some (initRev.length + 1)
      else if allowV4 && isV4Chars lastGroup then some (initRev.length + 2)
      else none

/-- IPv6 literal as accepted by Go `net.ParseIP`: eight groups, or fewer
with exactly one `::` standing for at least one zero group; optional
embedded dotted quad in the final position; no zone suffix. -/
def isV6Chars (l : List Char) : Bool :=
  if l.contains '%' then false
  else
    match splitDoubleColon l with
    | none =>
      match v6SideGroups l true with
      | some n => n = 8
      | none => false
    | some (left, right) =>
      if hasDoubleColon right then false
      else
        match v6SideGroups left false, v6SideGroups right true with
        | some a, some b => a + b ≤ 7
        | _, _ => false

/-- Scan for the first `.` or `:`, dispatching to the IPv4 or IPv6 grammar
exactly as Go `net.ParseIP` does. -/
def dispatch (orig : List Char) : List Char → Bool
  | [] => false
  | c :: rest =>
    if c = '.' then isV4Chars orig
    else if c = ':' then isV6Chars orig
    else dispatch orig rest

/-- Model of `net.ParseIP(s) != nil` (the only way the repository uses the
parse result in validation paths). -/
def goParseIPSome (s : String) : Bool := dispatch s.toList s.toList

end YALS.IPParse

namespace YALS.Validator

open YALS YALS.IPParse

/-- Result classification of `validator.ValidateInput`. -/
inductive InputType where
  | invalidInput
  | ipAddress
  | domain
deriving DecidableEq

/-- Embedding of `validator.extractHostPort` (validator.go): bracketed IPv6
with optional port, bare IPv6, or host:port split at the last colon, with
the malformed cases returning empty host and port. -/
def extractHostPort (input : String) : String × String :=
  let chars := input.toList
  match chars with
  | '[' :: rest =>
    (match breakAtChar ']' rest with
     | none => ("", "")
     | some (host, after) =>
       match after with
       | [] => (String.mk host, "")
       | ':' :: p => (String.mk host, String.mk p)
       | _ => ("", ""))
  | _ =>
    match breakAtLastChar ':' chars with
    | none => (input, "")
    | some (host, port) =>
      if goParseIPSome input then (input, "")
      else if host.contains ':' then
        (if goParseIPSome input then (input, "") else ("", ""))
      else (String.mk host, String.mk port)

/-- Embedding of `validator.isValidDomain`: the source's regular expression
(one or more labels of length 1-63 with alphanumeric first and last
characters and alphanumeric-or-hyphen interior of at most 61 characters,
each followed by a dot, then an alphabetic TLD of length at least two)
as a structural checker. -/
def isValidDomain (s : String) : Bool :=
  let isLabel : List Char → Bool := fun l =>
    match l with
    | [] => false
    | [c] => isAlnum c
    | c :: rest =>
      isAlnum c &&
      (match rest.reverse with
       | [] => false
       | lastC :: midRev =>
         isAlnum lastC && midRev.length ≤ 61 &&
         midRev.all (fun x => isAlnum x || x = '-'))
  match (splitOnChar '.' s.toList).reverse with
  | [] => false
  | tld :: labelsRev =>
    !labelsRev.isEmpty &&
    tld.length ≥ 2 && tld.all (fun c => ('a' ≤ c && c ≤ 'z') || ('A' ≤ c && c ≤ 'Z')) &&
    labelsRev.all isLabel

/-- Embedding of `validator.ValidateInput`: reject inputs longer than 256
bytes before trimming, trim, reject empty, split host and port, require a
numeric port when present, then classify the host as IP literal or
domain. -/
def ValidateInput (input : String) : InputType :=
  if goLen input > 256 then InputType.invalidInput
  else
    let trimmed := goTrimSpace input
    if trimmed = "" then InputType.invalidInput
    else
      let hp := extractHostPort trimmed
      if hp.1 = "" then InputType.invalidInput
      else if hp.2 ≠ "" && !(hp.2.toList.all Char.isDigit) then InputType.invalidInput
      else if goParseIPSome hp.1 then InputType.ipAddress
      else if isValidDomain hp.1 then InputType.domain
      else InputType.invalidInput

end YALS.Validator

namespace YALS.DNS

/-- IP-version preference of the DNS layer (`dns.IPVersion`; the constant
declarations live in DNS code whose file is not part of the snapshot, but
the three values `auto`, `ipv4`, `ipv6` are fixed by their uses in
validator.go and executor.go). -/
inductive IPVersion where
  | auto
  | ipv4
  | ipv6
deriving DecidableEq

/-- A resolution attempt outcome: either an error string or a list of IP
addresses rendered as strings (Go `[]net.IP` via `.String()`). -/
abbrev ResolveResult := Except String (List String)

/-- Embedding of `resolveDoH` (dns.go): the A and AAAA queries run as two
goroutines and their results are collected from a channel in completion
order, so the function is parameterised by the two outcomes and by which
query's result arrives first; `deadlined` is the branch where the context
deadline fires before both results arrive.  Successful results are
appended to `allIPs` in arrival order; the last error seen is kept. -/
def resolveDoH (aResult aaaaResult : ResolveResult) (aFirst : Bool)
    (deadlined : Bool) : ResolveResult :=
  if deadlined then Except.error "context deadline exceeded"
  else
    let arrival := if aFirst then [aResult, aaaaResult] else [aaaaResult, aResult]
    let allIPs := arrival.foldl
      (fun acc r => match r with | Except.ok ips => acc ++ ips | Except.error _ => acc) []
    let lastErr := arrival.foldl
      (fun acc r => match r with | Except.ok _ => acc | Except.error e => some e) none
    if allIPs.isEmpty then
      match lastErr with
      | some e => Except.error e
      | none => Except.error "no IP addresses found in DoH response"
    else Except.ok allIPs

/-- The race loop of `Resolve` (dns.go): at most `n` iterations of the
select statement, consuming remaining-endpoint results in arrival order;
a result that is error-free with at least one address returns at once; if
the arrival list runs dry before the loop ends, the context deadline has
fired and the error is returned without the fallback; when the loop
completes, the platform resolver's outcome is returned. -/
def raceLoop (fallback : ResolveResult) : Nat → List ResolveResult → ResolveResult
  | 0, _ => fallback
  | _ + 1, [] => Except.error "context deadline exceeded"
  | n + 1, r :: rest =>
    match r with
    | Except.ok ips => if ips.isEmpty then raceLoop fallback n rest else Except.ok ips
    | Except.error _ => raceLoop fallback n rest

/-- Embedding of `DNSResolver.Resolve` (dns.go): query the current fastest
endpoint first and return immediately on a non-empty success; otherwise
race the remaining `numServers - 1` endpoints and finally fall back to
the platform resolver. -/
def Resolve (numServers : Nat) (current : ResolveResult)
    (arrivals : List ResolveResult) (fallback : ResolveResult) : ResolveResult :=
  match current with
  | Except.ok ips =>
    if ips.isEmpty then raceLoop fallback (numServers - 1) arrivals
    else Except.ok ips
  | Except.error _ => raceLoop fallback (numServers - 1) arrivals

/-- First arrival that is error-free with at least one address (the winner
of the endpoint race, in arrival order). -/
def firstGood : List ResolveResult → Option (List String)
  | [] => none
  | Except.ok ips :: rest => if ips.isEmpty then firstGood rest else some ips
  | Except.error _ :: rest => firstGood rest

/-- Whether the current-endpoint query failed or returned no addresses
(the condition under which `Resolve` enters the race). -/
def failedOrEmpty : ResolveResult → Bool
  | Except.ok ips => ips.isEmpty
  | Except.error _ => true

end YALS.DNS

namespace YALS.Executor

open YALS YALS.Validator YALS.DNS

/-- Go-map association list: replace the binding when the key exists,
append it otherwise. -/
def mapInsert {α : Type} (m : List (String × α)) (k : String) (v : α) :
    List (String × α) :=
  match m with
  | [] => [(k, v)]
  | (k0, v0) :: rest =>
    if k0 = k then (k, v) :: rest else (k0, v0) :: mapInsert rest k v

/-- Go-map deletion. -/
def mapErase {α : Type} (m : List (String × α)) (k : String) : List (String × α) :=
  m.filter (fun p => p.1 ≠ k)

/-- Go-map lookup. -/
def mapLookup {α : Type} (m : List (String × α)) (k : String) : Option α :=
  match m with
  | [] => none
  | (k0, v) :: rest => if k0 = k then some v else mapLookup rest k

/-- The shell operator list of executor.go (`shellOperators`). -/
def shellOperators : List String := ["|", "&&", "||", ">", "<", ";"]

/-- A constructed command: either a shell indirection
(`exec.Command("/bin/bash", "-c", fullCommand)`) or a direct invocation
(`exec.Command(parts[0], parts[1:]...)`). -/
inductive Cmd where
  | shell (prog flag line : String)
  | direct (prog : String) (args : List String)
deriving DecidableEq

/-- Embedding of `Executor.createCommand`: a line containing any shell
operator runs under `/bin/bash -c`; otherwise it is split into
whitespace-separated fields and the first field is invoked directly;
with no fields the Go function returns nil, embedded as `none`. -/
def createCommand (fullCommand : String) : Option Cmd :=
  if shellOperators.any (fun op => strContains fullCommand op) then
    some (Cmd.shell "/bin/bash" "-c" fullCommand)
  else
    match goFields fullCommand with
    | [] => none
    | p :: ps => some (Cmd.direct (String.mk p) (ps.map String.mk))

/-- Embedding of `generateCommandID`: `command-target-sessionID` for a
non-empty target, else `command-sessionID`. -/
def generateCommandID (command target sessionID : String) : String :=
  if target ≠ "" then command ++ "-" ++ target ++ "-" ++ sessionID
  else command ++ "-" ++ sessionID

/-- One entry of the executor's `activeCommands` map; `hasCmd` records
whether the `Cmd` pointer has been attached (it is nil between
`storeCommand` and process start). -/
structure ActiveCommand where
  hasCmd : Bool
  fullCommand : String
deriving DecidableEq

/-- State of a capacity-1 stop channel: whether a stop signal is buffered. -/
structure StopChan where
  buffered : Bool
deriving DecidableEq

/-- The executor's shared state: the `activeCommands` and `stopSignals`
maps. -/
structure ExecState where
  activeCommands : List (String × ActiveCommand)
  stopSignals : List (String × StopChan)
deriving DecidableEq

/-- Embedding of the `executor.Output` event record. -/
structure Output where
  output : String
  error : String
  isError : Bool
  isComplete : Bool
  isStopped : Bool
deriving DecidableEq

/-- Zero value of `Output` (Go struct literal with omitted fields). -/
def emptyOutput : Output :=
  { output := "", error := "", isError := false, isComplete := false, isStopped := false }

/-- A pre-spawn or pipe/start failure event: `Error` message with
`IsComplete` and `IsError` set. -/
def errEvent (msg : String) : Output :=
  { emptyOutput with error := msg, isComplete := true, isError := true }

/-- A streamed line event from `streamOutput` (convertToUTF8 is the
identity off Windows). -/
def dataEvent (line : String) (isStderr : Bool) : Output :=
  { emptyOutput with output := line, isError := isStderr }

/-- The terminal event of the stop branch of `runCommand`. -/
def stoppedEvent : Output :=
  { emptyOutput with output := "\n*** Stopped ***", isComplete := true, isStopped := true }

/-- The terminal event of a clean exit. -/
def completeOkEvent : Output := { emptyOutput with isComplete := true }

/-- The terminal event of a non-zero exit or wait error. -/
def completeErrEvent (msg : String) : Output :=
  { emptyOutput with output := "Command failed: " ++ msg, isComplete := true, isError := true }

/-- Embedding of `storeCommand`: insert a command entry with no attached
process and a fresh, empty stop channel. -/
def storeCommand (st : ExecState) (commandID fullCommand : String) : ExecState :=
  { activeCommands :=
      mapInsert st.activeCommands commandID { hasCmd := false, fullCommand := fullCommand },
    stopSignals := mapInsert st.stopSignals commandID { buffered := false } }

/-- Embedding of `removeCommand`: delete the entry from both maps. -/
def removeCommand (st : ExecState) (commandID : String) : ExecState :=
  { activeCommands := mapErase st.activeCommands commandID,
    stopSignals := mapErase st.stopSignals commandID }

/-- Embedding of `Executor.Stop`: an unknown commandID returns false and
changes nothing; a known one delivers the signal only when the
capacity-1 channel is empty (the non-blocking send's default branch
returns false). -/
def Stop (st : ExecState) (commandID : String) : Bool × ExecState :=
  match mapLookup st.stopSignals commandID with
  | none => (false, st)
  | some ch =>
    if ch.buffered then (false, st)
    else
      (true,
       { st with stopSignals := mapInsert st.stopSignals commandID { buffered := true } })

/-- How a supervised process run ends: a stop signal won the select, or
the process exited (with an optional wait error). -/
inductive RunOutcome where
  | stopped
  | exited (err : Option String)
deriving DecidableEq

/-- Environment of one `runCommand` execution: outcomes of the pipe and
start calls, the stdout/stderr lines forwarded to the event channel in
arrival order (text, isStderr), and how the select resolved. -/
structure RunEnv where
  stdoutPipeErr : Option String
  stderrPipeErr : Option String
  startErr : Option String
  lines : List (String × Bool)
  outcome : RunOutcome
deriving DecidableEq

/-- Result of one `runCommand` execution: the events sent to the channel
in order, whether the channel was closed, the final executor state, and
whether the goroutine panicked (nil command dereference). -/
structure RunResult where
  trace : List Output
  closed : Bool
  state : ExecState
  panicked : Bool
deriving DecidableEq

/-- Embedding of `Executor.runCommand`.  The deferred `removeCommand` and
`close(outputChan)` run on every path, including the nil-command panic:
`cmd.StdoutPipe()` on the nil `*exec.Cmd` returned by `createCommand`
dereferences nil, and the deferred calls still run while panicking, so
that path produces no event at all. -/
def runCommand (env : RunEnv) (st : ExecState) (commandID fullCommand : String) :
    RunResult :=
  match createCommand fullCommand with
  | none =>
    { trace := [], closed := true, state := removeCommand st commandID, panicked := true }
  | some _ =>
    match env.stdoutPipeErr with
    | some e =>
      { trace := [errEvent ("Failed to get stdout pipe: " ++ e)], closed := true,
        state := removeCommand st commandID, panicked := false }
    | none =>
      match env.stderrPipeErr with
      | some e =>
        { trace := [errEvent ("Failed to get stderr pipe: " ++ e)], closed := true,
          state := removeCommand st commandID, panicked := false }
      | none =>
        match env.startErr with
        | some e =>
          { trace := [errEvent ("Failed to start command: " ++ e)], closed := true,
            state := removeCommand st commandID, panicked := false }
        | none =>
          let st1 : ExecState :=
            { st with activeCommands :=
                (mapInsert st.activeCommands commandID
                  { hasCmd := true, fullCommand := fullCommand }) }
          let dataEvents := env.lines.map (fun lb => dataEvent lb.1 lb.2)
          match env.outcome with
          | RunOutcome.stopped =>
            { trace := dataEvents ++ [stoppedEvent], closed := true,
              state := removeCommand st1 commandID, panicked := false }
          | RunOutcome.exited none =>
            { trace := dataEvents ++ [completeOkEvent], closed := true,
              state := removeCommand st1 commandID, panicked := false }
          | RunOutcome.exited (some e) =>
            { trace := dataEvents ++ [completeErrEvent e], closed := true,
              state := removeCommand st1 commandID, panicked := false }

/-- A command template entry from the configuration (`config.Commands`). -/
structure CmdConfig where
  template : String
  ignoreTarget : Bool
deriving DecidableEq

/-- Embedding of `executor.extractHostPort` (executor.go): bracketed IPv6
with optional port, IPv6 detected by colon count, or a split at the last
colon. -/
def extractHostPort (target : String) : String × String :=
  let chars := target.toList
  match chars with
  | '[' :: rest =>
    (match breakAtChar ']' rest with
     | none => (target, "")
     | some (host, after) =>
       match after with
       | ':' :: p => (String.mk host, String.mk p)
       | _ => (String.mk host, ""))
  | _ =>
    match breakAtLastChar ':' chars with
    | none => (target, "")
    | some (host, port) =>
      if chars.count ':' > 1 then (target, "")
      else (String.mk host, String.mk port)

/-- The string-to-enum IP version mapping of `ExecuteWithIPVersion`
(default `auto`). -/
def ipVersionOf : String → IPVersion
  | "ipv4" => IPVersion.ipv4
  | "ipv6" => IPVersion.ipv6
  | _ => IPVersion.auto

/-- The resolution oracle: outcome of
`validator.ResolveDomainWithVersion(host, version)` for each host and
version. -/
abbrev ResolveOracle := String → IPVersion → ResolveResult

/-- The target-resolution block of `ExecuteWithIPVersion` (executor.go
lines 65-120): a domain target is resolved through the DNS layer, the
first returned address replaces the host, and the original port is
reattached, bracketing IPv6 addresses; failures yield the single
pre-spawn error event. -/
def resolveTargetGo (cmdCfg : CmdConfig) (target ipVersion : String)
    (oracle : ResolveOracle) : Except Output String :=
  if target ≠ "" && !cmdCfg.ignoreTarget then
    if ValidateInput target = InputType.domain then
      match oracle (extractHostPort target).1 (ipVersionOf ipVersion) with
      | Except.error e =>
        Except.error (errEvent ("Failed to resolve domain " ++ (extractHostPort target).1 ++ ": " ++ e))
      | Except.ok [] =>
        Except.error (errEvent ("No IP addresses found for domain: " ++ (extractHostPort target).1))
      | Except.ok (ip :: _) =>
        if (extractHostPort target).2 ≠ "" then
          if strContains ip ":" then Except.ok ("[" ++ ip ++ "]:" ++ (extractHostPort target).2)
          else Except.ok (ip ++ ":" ++ (extractHostPort target).2)
        else Except.ok ip
    else Except.ok target
  else Except.ok target

/-- Result of the synchronous part of `ExecuteWithIPVersion`: the events
emitted before returning, the returned commandID, the full command line
handed to the spawned `runCommand` goroutine when one was started, and
the executor state. -/
structure ExecuteResult where
  preEvents : List Output
  commandID : String
  spawned : Option String
  state : ExecState
deriving DecidableEq

/-- Embedding of `Executor.ExecuteWithIPVersion`: unknown template and
resolution failures emit a single error event and return an empty
commandID without spawning; otherwise the command line is built (target
appended unless ignored or empty), the invocation is registered via
`storeCommand`, and `runCommand` is spawned. -/
def executeModel (commands : List (String × CmdConfig))
    (commandName target sessionID ipVersion : String)
    (oracle : ResolveOracle) (st : ExecState) : ExecuteResult :=
  match mapLookup commands commandName with
  | none =>
    { preEvents := [errEvent ("Command not found: " ++ commandName)],
      commandID := "", spawned := none, state := st }
  | some cmdCfg =>
    match resolveTargetGo cmdCfg target ipVersion oracle with
    | Except.error ev =>
      { preEvents := [ev], commandID := "", spawned := none, state := st }
    | Except.ok resolvedTarget =>
      let fullCommand :=
        if resolvedTarget ≠ "" && !cmdCfg.ignoreTarget then
          cmdCfg.template ++ " " ++ resolvedTarget
        else cmdCfg.template
      let commandID := generateCommandID commandName target sessionID
      { preEvents := [], commandID := commandID, spawned := some fullCommand,
        state := storeCommand st commandID fullCommand }

/-- A whole invocation: the synchronous `ExecuteWithIPVersion` part
followed, when a goroutine was spawned, by `runCommand`.  Pre-spawn
failure paths never close the event channel (only `runCommand`'s
deferred `close` does). -/
def invocationModel (commands : List (String × CmdConfig))
    (commandName target sessionID ipVersion : String)
    (oracle : ResolveOracle) (st : ExecState) (env : RunEnv) : RunResult :=
  let ex := executeModel commands commandName target sessionID ipVersion oracle st
  match ex.spawned with
  | none => { trace := ex.preEvents, closed := false, state := ex.state, panicked := false }
  | some fc =>
    let r := runCommand env ex.state ex.commandID fc
    { r with trace := ex.preEvents ++ r.trace }

end YALS.Executor

namespace YALS.Handler

open YALS.Executor (mapInsert mapLookup)

/-- The handler's rate limiter: configuration plus the per-session map of
acceptance timestamps.  Time is in the same unit as `timeWindow`
(seconds in the concrete scenarios below). -/
structure RateLimiter where
  enabled : Bool
  maxCommands : Nat
  timeWindow : Int
  sessions : List (String × List Int)
deriving DecidableEq

/-- Embedding of `filterRecentTimestamps` (handler.go): keep the
timestamps strictly within the window, in order. -/
def filterRecentTimestamps (timestamps : List Int) (now window : Int) : List Int :=
  timestamps.filter (fun t => now - t < window)

/-- Embedding of `checkRateLimit` from handler.go (the WebSocket handler):
disabled mode always accepts; a session seen for the first time is
created with an empty timestamp list and accepted without recording the
current timestamp; an existing session is pruned to the window, rejected
when the pruned count reaches the maximum, and otherwise accepted with
the current timestamp appended. -/
def checkRateLimitWS (rl : RateLimiter) (sessionID : String) (now : Int) :
    Bool × RateLimiter :=
  if !rl.enabled then (true, rl)
  else
    match mapLookup rl.sessions sessionID with
    | none => (true, { rl with sessions := mapInsert rl.sessions sessionID [] })
    | some ts =>
      let ts1 := filterRecentTimestamps ts now rl.timeWindow
      if ts1.length ≥ rl.maxCommands then
        (false, { rl with sessions := mapInsert rl.sessions sessionID ts1 })
      else
        (true, { rl with sessions := mapInsert rl.sessions sessionID (ts1 ++ [now]) })

/-- Embedding of `checkRateLimit` from the SSE handler file (part_004):
disabled mode always accepts; a missing session is first created with an
empty list, then every enabled-mode check prunes, rejects at the
maximum, and appends the current timestamp on acceptance. -/
def checkRateLimitSSE (rl : RateLimiter) (sessionID : String) (now : Int) :
    Bool × RateLimiter :=
  if !rl.enabled then (true, rl)
  else
    let rl1 :=
      match mapLookup rl.sessions sessionID with
      | none => { rl with sessions := mapInsert rl.sessions sessionID [] }
      | some _ => rl
    let ts := (mapLookup rl1.sessions sessionID).getD []
    let ts1 := filterRecentTimestamps ts now rl1.timeWindow
    if ts1.length ≥ rl1.maxCommands then
      (false, { rl1 with sessions := mapInsert rl1.sessions sessionID ts1 })
    else
      (true, { rl1 with sessions := mapInsert rl1.sessions sessionID (ts1 ++ [now]) })

/-- Run a sequence of rate-limit checks for one session at the given
times, threading the limiter state. -/
def runChecks (check : RateLimiter → String → Int → Bool × RateLimiter)
    (rl : RateLimiter) (sessionID : String) : List Int → List Bool × RateLimiter
  | [] => ([], rl)
  | t :: ts =>
    let r := check rl sessionID t
    let rest := runChecks check r.2 sessionID ts
    (r.1 :: rest.1, rest.2)

end YALS.Handler

namespace YALS

open YALS.IPParse YALS.Validator YALS.DNS YALS.Executor YALS.Handler

/-- A one-command configuration used by concrete scenarios. -/
def demoCommands : List (String × CmdConfig) :=
  [("ping", { template := "ping -c 4", ignoreTarget := false })]

/-- The executor state at startup: both maps empty. -/
def emptyExecState : ExecState := { activeCommands := [], stopSignals := [] }

/-- A resolution oracle that always succeeds with one IPv4 address. -/
def demoOracle : ResolveOracle := fun _ _ => Except.ok ["93.184.216.34"]

/-- A run environment for a clean, quiet run: pipes and start succeed, no
output lines, process exits cleanly. -/
def demoRunEnv : RunEnv :=
  { stdoutPipeErr := none, stderrPipeErr := none, startErr := none,
    lines := [], outcome := RunOutcome.exited none }

/-- A run environment whose select resolves to the stop signal after one
forwarded stdout line. -/
def stopRunEnv : RunEnv :=
  { stdoutPipeErr := none, stderrPipeErr := none, startErr := none,
    lines := [("64 bytes from 1.1.1.1", false)], outcome := RunOutcome.stopped }

/-- A syntactically valid domain padded with 246 trailing spaces to a
total of 257 bytes. -/
def paddedHost : String := "example.com" ++ String.mk (List.replicate 246 ' ')

/-- The rate limiter configuration of the concrete spec scenario:
enabled, three commands per sixty-second window, no sessions yet. -/
def rlDemo : RateLimiter :=
  { enabled := true, maxCommands := 3, timeWindow := 60, sessions := [] }

/-- Looking up the key just inserted by the Go-map insert finds the new
value. -/
theorem mapLookup_mapInsert_self {α : Type} (m : List (String × α)) (k : String) (v : α) :
    mapLookup (mapInsert m k v) k = some v := by
  induction m with
  | nil => simp [mapInsert, mapLookup]
  | cons p rest ih =>
    obtain ⟨k0, v0⟩ := p
    by_cases h : k0 = k
    · simp [mapInsert, mapLookup, h]
    · simp [mapInsert, mapLookup, h, ih]

/-- Looking up the key just deleted by the Go-map delete finds nothing. -/
theorem mapLookup_mapErase_self {α : Type} (m : List (String × α)) (k : String) :
    mapLookup (mapErase m k) k = none := by
  induction m with
  | nil => rfl
  | cons p rest ih =>
    obtain ⟨k0, v0⟩ := p
    by_cases h : k0 = k
    · simpa [mapErase, h] using ih
    · simpa [mapErase, mapLookup, h] using ih

/-- Streamed line events never carry the completion flag. -/
theorem countP_dataEvents_isComplete (lines : List (String × Bool)) :
    (lines.map (fun lb => dataEvent lb.1 lb.2)).countP (fun o => o.isComplete) = 0 := by
  induction lines with
  | nil => rfl
  | cons lb rest ih => simp [List.countP_cons, dataEvent, emptyOutput, ih]

/-- Streamed line events never carry the stopped flag. -/
theorem countP_dataEvents_isStopped (lines : List (String × Bool)) :
    (lines.map (fun lb => dataEvent lb.1 lb.2)).countP (fun o => o.isStopped) = 0 := by
  induction lines with
  | nil => rfl
  | cons lb rest ih => simp [List.countP_cons, dataEvent, emptyOutput, ih]

/-- Streamed line events are never classified as Complete events. -/
theorem countP_dataEvents_completeClass (lines : List (String × Bool)) :
    (lines.map (fun lb => dataEvent lb.1 lb.2)).countP
      (fun o => o.isComplete && !o.isStopped) = 0 := by
  induction lines with
  | nil => rfl
  | cons lb rest ih => simp [List.countP_cons, dataEvent, emptyOutput, ih]

end YALS

namespace YALS.Claims

open YALS YALS.IPParse YALS.Validator YALS.DNS YALS.Executor YALS.Handler

/-- C6: `Stop` on a commandID with no registered stop signal (unknown, or
already removed by the invocation's deferred cleanup) returns false and
leaves the executor state — both the activeCommands and stopSignals maps
— unchanged. -/
theorem stop_unknown_noop (st : ExecState) (commandID : String)
    (h : mapLookup st.stopSignals commandID = none) :
    Stop st commandID = (false, st) := by
  unfold Stop
  rw [h]

/-- C6 witness: stopping an unknown commandID on a state with one other
active command returns false and the state is untouched. -/
theorem stop_unknown_noop_wit :
    Stop { activeCommands := [("ping-s1", { hasCmd := true, fullCommand := "ping -c 4 1.1.1.1" })],
           stopSignals := [("ping-s1", { buffered := false })] } "traceroute-s2"
      = (false,
         { activeCommands := [("ping-s1", { hasCmd := true, fullCommand := "ping -c 4 1.1.1.1" })],
           stopSignals := [("ping-s1", { buffered := false })] }) :=
  stop_unknown_noop _ _ (by decide)

/-- C5 counterexample: two successive Execute calls with an empty target
for the same command and session both return the commandID
`ping-sess1`; the second call's state is the state left by the first, so
the identifiers collide, refuting monotonic uniqueness. -/
theorem commandID_empty_target_collision :
    (executeModel demoCommands "ping" "" "sess1" "auto" demoOracle emptyExecState).commandID
      = "ping-sess1"
    ∧ (executeModel demoCommands "ping" "" "sess1" "auto" demoOracle
        (executeModel demoCommands "ping" "" "sess1" "auto" demoOracle emptyExecState).state).commandID
      = "ping-sess1" := by
  exact ⟨by decide, by decide⟩

/-- C5 amended: the commandID is `command-target-sessionID` for a
non-empty target and `command-sessionID` for an empty target, and the
commandID returned by Execute never depends on the executor state, so
two Execute calls with an empty target and the same command and session
yield the SAME commandID (deterministic, not monotonically unique). -/
theorem commandID_deterministic (c t s : String) :
    (t ≠ "" → generateCommandID c t s = c ++ "-" ++ t ++ "-" ++ s)
    ∧ (t = "" → generateCommandID c t s = c ++ "-" ++ s)
    ∧ (∀ commands ipv oracle st st',
        (executeModel commands c t s ipv oracle st).commandID
          = (executeModel commands c t s ipv oracle st').commandID) := by
  refine ⟨fun h => by simp [generateCommandID, h], fun h => by simp [generateCommandID, h], ?_⟩
  intro commands ipv oracle st st'
  cases hm : mapLookup commands c with
  | none => simp [executeModel, hm]
  | some cfg =>
    cases hr : resolveTargetGo cfg t ipv oracle with
    | error ev => simp [executeModel, hm, hr]
    | ok rt => simp [executeModel, hm, hr]

/-- C5 witness: the two derivation shapes at concrete inputs. -/
theorem commandID_deterministic_wit :
    generateCommandID "ping" "1.1.1.1" "s1" = "ping-1.1.1.1-s1"
    ∧ generateCommandID "ping" "" "s1" = "ping-s1" :=
  ⟨by rw [(commandID_deterministic "ping" "1.1.1.1" "s1").1 (by decide)]; rfl,
   by rw [(commandID_deterministic "ping" "" "s1").2.1 rfl]; rfl⟩

/-- C3 counterexample: the command line `echo a & echo b` contains the
shell metacharacter `&` but is invoked directly (split on whitespace),
not through a shell indirection: a lone ampersand is not in
executor.go's shellOperators list. -/
theorem createCommand_single_ampersand :
    strContains "echo a & echo b" "&" = true
    ∧ createCommand "echo a & echo b" = some (Cmd.direct "echo" ["a", "&", "echo", "b"])
    ∧ createCommand "echo a & echo b" ≠ some (Cmd.shell "/bin/bash" "-c" "echo a & echo b") := by
  exact ⟨by decide, by decide, by decide⟩

/-- C3 amended: the operator set checked by createCommand is `|`, `&&`,
`||`, `>`, `<`, `;` — a lone `&` is not among them.  A line containing
any of the six is run through `/bin/bash -c`; otherwise the line is
split on whitespace, the first field is invoked directly with the
remaining fields as arguments, and a line with no fields constructs no
command at all (nil). -/
theorem createCommand_dispatch (s : String) :
    (shellOperators.any (fun op => strContains s op)
       = (strContains s "|" || strContains s "&&" || strContains s "||" ||
          strContains s ">" || strContains s "<" || strContains s ";"))
    ∧ (shellOperators.any (fun op => strContains s op) = true →
        createCommand s = some (Cmd.shell "/bin/bash" "-c" s))
    ∧ (shellOperators.any (fun op => strContains s op) = false →
        createCommand s =
          (match goFields s with
           | [] => none
           | p :: ps => some (Cmd.direct (String.mk p) (ps.map String.mk)))) := by
  refine ⟨?_, fun h => by simp [createCommand, h], fun h => by simp [createCommand, h]⟩
  simp [shellOperators, Bool.or_assoc]

/-- C3 witness: the three dispatch outcomes at concrete command lines. -/
theorem createCommand_dispatch_wit :
    createCommand "echo hi | grep h" = some (Cmd.shell "/bin/bash" "-c" "echo hi | grep h")
    ∧ createCommand "ping -c 4 1.1.1.1" = some (Cmd.direct "ping" ["-c", "4", "1.1.1.1"])
    ∧ createCommand " " = none := by
  refine ⟨(createCommand_dispatch "echo hi | grep h").2.1 (by decide), ?_, ?_⟩
  · have h := (createCommand_dispatch "ping -c 4 1.1.1.1").2.2 (by decide)
    exact h
  · have h := (createCommand_dispatch " ").2.2 (by decide)
    exact h

/-- C9: ValidateInput classifies every input longer than 256 bytes as
invalid, and the length check runs on the raw input before whitespace
trimming: `example.com` padded with 246 trailing spaces (257 bytes) is
rejected even though its trimmed form is accepted as a domain. -/
theorem validateInput_length_first :
    (∀ s : String, goLen s > 256 → ValidateInput s = InputType.invalidInput)
    ∧ ValidateInput paddedHost = InputType.invalidInput
    ∧ goTrimSpace paddedHost = "example.com"
    ∧ ValidateInput "example.com" = InputType.domain := by
  refine ⟨?_, by decide, by decide, by decide⟩
  intro s h
  unfold ValidateInput
  rw [if_pos h]

/-- C9 witness: a 257-byte input is rejected. -/
theorem validateInput_length_first_wit :
    ValidateInput (String.mk (List.replicate 257 'a')) = InputType.invalidInput :=
  validateInput_length_first.1 _ (by decide)

/-- C10: a command line containing no shell operator and splitting into
zero whitespace-separated fields makes createCommand return nil (none),
and runCommand calls StdoutPipe on that nil command with no guard: the
run panics and emits no event at all — in particular no terminal error
event; the branch is reachable, e.g. from an empty command line. -/
theorem createCommand_nil_unhandled :
    (∀ s : String, shellOperators.any (fun op => strContains s op) = false →
       goFields s = [] → createCommand s = none)
    ∧ (∀ env st cid s, createCommand s = none →
        (runCommand env st cid s).panicked = true ∧ (runCommand env st cid s).trace = [])
    ∧ createCommand "" = none := by
  refine ⟨?_, ?_, by decide⟩
  · intro s h hf
    simp [createCommand, h, hf]
  · intro env st cid s h
    constructor <;> simp [runCommand, h]

/-- C10 witness: the whitespace-only line and the resulting panicking
run at concrete inputs. -/
theorem createCommand_nil_unhandled_wit :
    createCommand " \t " = none
    ∧ (runCommand demoRunEnv emptyExecState "id1" "").panicked = true :=
  ⟨createCommand_nil_unhandled.1 " \t " (by decide) (by decide),
   (createCommand_nil_unhandled.2.1 demoRunEnv emptyExecState "id1" "" (by decide)).1⟩

/-- C1: evaluation of both checkRateLimit implementations with
maxCommands=3, timeWindow=60s and four calls at 0,1,2,3 seconds for one
fresh session.  The handler.go (WebSocket) variant accepts all four
calls — its first-contact branch creates the session but records no
timestamp — diverging from the specified accept-three-reject-fourth
behaviour, which the SSE variant (part_004) exhibits exactly, including
acceptance again once the window has passed. -/
theorem rateLimit_ws_divergence :
    (runChecks checkRateLimitWS rlDemo "sess" [0, 1, 2, 3]).1 = [true, true, true, true]
    ∧ (runChecks checkRateLimitWS rlDemo "sess" [0, 1, 2, 3]).1 ≠ [true, true, true, false]
    ∧ (runChecks checkRateLimitSSE rlDemo "sess" [0, 1, 2, 3]).1 = [true, true, true, false]
    ∧ (checkRateLimitSSE (runChecks checkRateLimitSSE rlDemo "sess" [0, 1, 2, 3]).2
        "sess" 70).1 = true := by
  exact ⟨by decide, by decide, by decide, by decide⟩

/-- C2 counterexample: with the A query and the AAAA query both
succeeding with one address each (A arriving first), resolveDoH returns
the two-address concatenation containing the AAAA result, not the IPv4
set alone. -/
theorem resolveDoH_mixes_families :
    resolveDoH (Except.ok ["93.184.216.34"])
        (Except.ok ["2606:2800:21f:cb07:6820:80da:af6b:8b2c"]) true false
      = Except.ok ["93.184.216.34", "2606:2800:21f:cb07:6820:80da:af6b:8b2c"]
    ∧ resolveDoH (Except.ok ["93.184.216.34"])
        (Except.ok ["2606:2800:21f:cb07:6820:80da:af6b:8b2c"]) true false
      ≠ Except.ok ["93.184.216.34"] := by
  refine ⟨rfl, ?_⟩
  intro h
  injection h with h2
  exact absurd h2 (by decide)

/-- C2 amended: the A and AAAA queries run concurrently, and when both
succeed with at least one address the returned list is the
concatenation of the two result sets in completion order — a mixture of
IPv4 and IPv6 addresses — never the IPv4 set alone. -/
theorem resolveDoH_both_success (a4 a6 : List String) (aFirst : Bool)
    (h4 : a4 ≠ []) (h6 : a6 ≠ []) :
    resolveDoH (Except.ok a4) (Except.ok a6) aFirst false
      = Except.ok (if aFirst then a4 ++ a6 else a6 ++ a4) := by
  cases aFirst <;> rcases a4 with _ | ⟨x4, r4⟩ <;> rcases a6 with _ | ⟨x6, r6⟩ <;>
    first
      | exact absurd rfl h4
      | exact absurd rfl h6
      | simp [resolveDoH]

/-- C2 witness: concrete instantiation of the amended statement. -/
theorem resolveDoH_both_success_wit :
    resolveDoH (Except.ok ["1.2.3.4"]) (Except.ok ["2001:db8::1"]) true false
      = Except.ok ["1.2.3.4", "2001:db8::1"] := by
  have h := resolveDoH_both_success ["1.2.3.4"] ["2001:db8::1"] true (by decide) (by decide)
  simpa using h

/-- The race loop, given that every remaining endpoint's result arrives
before the deadline, returns the first arrival that succeeded with at
least one address, or the platform fallback when none did. -/
theorem raceLoop_complete (fallback : ResolveResult) (arrivals : List ResolveResult) :
    raceLoop fallback arrivals.length arrivals
      = (match firstGood arrivals with
         | some ips => Except.ok ips
         | none => fallback) := by
  induction arrivals with
  | nil => rfl
  | cons r rest ih =>
    cases r with
    | ok ips =>
      by_cases h : ips.isEmpty
      · simp [raceLoop, firstGood, h, ih]
      · simp [raceLoop, firstGood, h]
    | error e => simpa [raceLoop, firstGood] using ih

/-- C8: Resolve queries the currently selected fastest endpoint first and
returns its addresses immediately when that query succeeds with at
least one address; otherwise it races the remaining endpoints and
returns the first arrival that succeeds with at least one address; and
when the current query and every raced endpoint fail or return no
addresses before the deadline (all results arrive), it returns the
platform default resolver's outcome. -/
theorem resolve_strategy (numServers : Nat) (current : ResolveResult)
    (arrivals : List ResolveResult) (fallback : ResolveResult)
    (hlen : arrivals.length = numServers - 1) :
    (∀ ips, current = Except.ok ips → ips ≠ [] →
        Resolve numServers current arrivals fallback = Except.ok ips)
    ∧ (failedOrEmpty current = true → ∀ ips, firstGood arrivals = some ips →
        Resolve numServers current arrivals fallback = Except.ok ips)
    ∧ (failedOrEmpty current = true → firstGood arrivals = none →
        Resolve numServers current arrivals fallback = fallback) := by
  have henter : failedOrEmpty current = true →
      Resolve numServers current arrivals fallback
        = raceLoop fallback (numServers - 1) arrivals := by
    intro hc
    cases current with
    | ok l =>
      simp only [failedOrEmpty] at hc
      simp [Resolve, hc]
    | error e => rfl
  refine ⟨?_, ?_, ?_⟩
  · rintro ips rfl h
    rcases ips with _ | ⟨x, r⟩
    · exact absurd rfl h
    · simp [Resolve]
  · intro hc ips hg
    rw [henter hc, ← hlen, raceLoop_complete, hg]
  · intro hc hg
    rw [henter hc, ← hlen, raceLoop_complete, hg]

/-- C8 witness: the three strategy outcomes at concrete inputs with two
configured endpoints. -/
theorem resolve_strategy_wit :
    Resolve 2 (Except.ok ["1.0.0.1"]) [Except.error "slow"] (Except.error "unused")
      = Except.ok ["1.0.0.1"]
    ∧ Resolve 2 (Except.error "timeout") [Except.ok ["9.9.9.9"]] (Except.error "unused")
      = Except.ok ["9.9.9.9"]
    ∧ Resolve 2 (Except.error "timeout") [Except.error "refused"] (Except.ok ["8.8.8.8"])
      = Except.ok ["8.8.8.8"] :=
  ⟨(resolve_strategy 2 (Except.ok ["1.0.0.1"]) [Except.error "slow"]
      (Except.error "unused") (by decide)).1 ["1.0.0.1"] rfl (by decide),
   (resolve_strategy 2 (Except.error "timeout") [Except.ok ["9.9.9.9"]]
      (Except.error "unused") (by decide)).2.1 rfl ["9.9.9.9"] rfl,
   (resolve_strategy 2 (Except.error "timeout") [Except.error "refused"]
      (Except.ok ["8.8.8.8"]) (by decide)).2.2 rfl rfl⟩

/-- C7: an invocation whose select resolves to the stop signal (with
pipes and start succeeding and a command line that parses to a non-nil
command) emits exactly one Stopped event and no Complete event (an
event with IsComplete set but IsStopped unset, the classification the
consumer applies), and afterwards neither the activeCommands map nor
the stopSignals map contains the commandID. -/
theorem stopped_invocation (env : RunEnv) (st : ExecState) (commandID fullCommand : String)
    (hc : (createCommand fullCommand).isSome = true)
    (h1 : env.stdoutPipeErr = none) (h2 : env.stderrPipeErr = none)
    (h3 : env.startErr = none) (h4 : env.outcome = RunOutcome.stopped) :
    ((runCommand env st commandID fullCommand).trace.countP (fun o => o.isStopped) = 1)
    ∧ ((runCommand env st commandID fullCommand).trace.countP
         (fun o => o.isComplete && !o.isStopped) = 0)
    ∧ mapLookup (runCommand env st commandID fullCommand).state.activeCommands commandID = none
    ∧ mapLookup (runCommand env st commandID fullCommand).state.stopSignals commandID = none := by
  obtain ⟨c, hcc⟩ := Option.isSome_iff_exists.mp hc
  simp only [runCommand, hcc, h1, h2, h3, h4]
  refine ⟨?_, ?_, ?_, ?_⟩
  · rw [List.countP_append, countP_dataEvents_isStopped]
    rfl
  · rw [List.countP_append, countP_dataEvents_completeClass]
    rfl
  · exact mapLookup_mapErase_self _ _
  · exact mapLookup_mapErase_self _ _

/-- C7 witness: a concrete stopped run of `ping -c 4 1.1.1.1` that had
forwarded one stdout line. -/
theorem stopped_invocation_wit :
    ((runCommand stopRunEnv (storeCommand emptyExecState "ping-s" "ping -c 4 1.1.1.1")
        "ping-s" "ping -c 4 1.1.1.1").trace.countP (fun o => o.isStopped) = 1)
    ∧ ((runCommand stopRunEnv (storeCommand emptyExecState "ping-s" "ping -c 4 1.1.1.1")
        "ping-s" "ping -c 4 1.1.1.1").trace.countP
         (fun o => o.isComplete && !o.isStopped) = 0)
    ∧ mapLookup (runCommand stopRunEnv (storeCommand emptyExecState "ping-s" "ping -c 4 1.1.1.1")
        "ping-s" "ping -c 4 1.1.1.1").state.activeCommands "ping-s" = none
    ∧ mapLookup (runCommand stopRunEnv (storeCommand emptyExecState "ping-s" "ping -c 4 1.1.1.1")
        "ping-s" "ping -c 4 1.1.1.1").state.stopSignals "ping-s" = none :=
  stopped_invocation stopRunEnv (storeCommand emptyExecState "ping-s" "ping -c 4 1.1.1.1")
    "ping-s" "ping -c 4 1.1.1.1" (by decide) rfl rfl rfl rfl

/-- Every error produced by the target-resolution block is a terminal
error event (IsComplete set, IsStopped unset). -/
theorem resolveTargetGo_error_shape (cmdCfg : CmdConfig) (target ipVersion : String)
    (oracle : ResolveOracle) (ev : Output)
    (h : resolveTargetGo cmdCfg target ipVersion oracle = Except.error ev) :
    ev.isComplete = true ∧ ev.isStopped = false := by
  unfold resolveTargetGo at h
  split at h
  · split at h
    · split at h
      · injection h with h2
        rw [← h2]
        exact ⟨rfl, rfl⟩
      · injection h with h2
        rw [← h2]
        exact ⟨rfl, rfl⟩
      · split at h <;> (try split at h) <;> exact Except.noConfusion h
    · exact Except.noConfusion h
  · exact Except.noConfusion h

/-- Every run of a non-nil command sends a final event with the
completion flag, preceded only by non-terminal data events, and closes
the channel. -/
theorem runCommand_terminal_shape (env : RunEnv) (st : ExecState)
    (commandID fullCommand : String)
    (hc : (createCommand fullCommand).isSome = true) :
    (∃ front ev, (runCommand env st commandID fullCommand).trace = front ++ [ev]
       ∧ ev.isComplete = true ∧ front.countP (fun o => o.isComplete) = 0)
    ∧ (runCommand env st commandID fullCommand).closed = true := by
  obtain ⟨c, hcc⟩ := Option.isSome_iff_exists.mp hc
  obtain ⟨o1, o2, o3, lines, outc⟩ := env
  simp only [runCommand, hcc]
  cases o1 with
  | some e => exact ⟨⟨[], errEvent ("Failed to get stdout pipe: " ++ e), rfl, rfl, rfl⟩, rfl⟩
  | none =>
    cases o2 with
    | some e => exact ⟨⟨[], errEvent ("Failed to get stderr pipe: " ++ e), rfl, rfl, rfl⟩, rfl⟩
    | none =>
      cases o3 with
      | some e => exact ⟨⟨[], errEvent ("Failed to start command: " ++ e), rfl, rfl, rfl⟩, rfl⟩
      | none =>
        cases outc with
        | stopped =>
          exact ⟨⟨lines.map (fun lb => dataEvent lb.1 lb.2), stoppedEvent, rfl, rfl,
            countP_dataEvents_isComplete lines⟩, rfl⟩
        | exited err =>
          cases err with
          | none =>
            exact ⟨⟨lines.map (fun lb => dataEvent lb.1 lb.2), completeOkEvent, rfl, rfl,
              countP_dataEvents_isComplete lines⟩, rfl⟩
          | some e =>
            exact ⟨⟨lines.map (fun lb => dataEvent lb.1 lb.2), completeErrEvent e, rfl, rfl,
              countP_dataEvents_isComplete lines⟩, rfl⟩

/-- C4 counterexample: an invocation that fails before spawning (unknown
template) emits its single terminal error event, but the event channel
is NOT closed — only runCommand's deferred close ever closes it — so
the terminal event does not close the stream for pre-spawn failures. -/
theorem pre_spawn_stream_not_closed :
    (invocationModel [] "ping" "1.1.1.1" "s" "auto" demoOracle emptyExecState
        demoRunEnv).trace = [errEvent "Command not found: ping"]
    ∧ (invocationModel [] "ping" "1.1.1.1" "s" "auto" demoOracle emptyExecState
        demoRunEnv).closed = false :=
  ⟨rfl, rfl⟩

/-- C4 amended: provided any spawned command line parses to a non-nil
command, every invocation's event stream ends with exactly one terminal
event (IsComplete set: a Complete or Stopped variant) which is the last
event and is preceded only by non-terminal events; the channel is
closed iff a runCommand goroutine was spawned — pre-spawn failures
(unknown template, resolution failure, empty resolution result) emit
their terminal error event without closing the channel. -/
theorem invocation_terminal (commands : List (String × CmdConfig))
    (cn t sid ipv : String) (oracle : ResolveOracle) (st : ExecState) (env : RunEnv)
    (h : ∀ fc, (executeModel commands cn t sid ipv oracle st).spawned = some fc →
          (createCommand fc).isSome = true) :
    (∃ front ev,
        (invocationModel commands cn t sid ipv oracle st env).trace = front ++ [ev]
        ∧ ev.isComplete = true ∧ front.countP (fun o => o.isComplete) = 0)
    ∧ (invocationModel commands cn t sid ipv oracle st env).closed
        = (executeModel commands cn t sid ipv oracle st).spawned.isSome := by
  cases hm : mapLookup commands cn with
  | none =>
    constructor
    · refine ⟨[], errEvent ("Command not found: " ++ cn), ?_, rfl, rfl⟩
      simp [invocationModel, executeModel, hm]
    · simp [invocationModel, executeModel, hm]
  | some cfg =>
    cases hr : resolveTargetGo cfg t ipv oracle with
    | error ev0 =>
      obtain ⟨hev1, _⟩ := resolveTargetGo_error_shape cfg t ipv oracle ev0 hr
      constructor
      · refine ⟨[], ev0, ?_, hev1, rfl⟩
        simp [invocationModel, executeModel, hm, hr]
      · simp [invocationModel, executeModel, hm, hr]
    | ok rt =>
      have hsp : (executeModel commands cn t sid ipv oracle st).spawned
          = some (if rt ≠ "" && !cfg.ignoreTarget then cfg.template ++ " " ++ rt
                  else cfg.template) := by
        simp [executeModel, hm, hr]
      have hc2 := h _ hsp
      obtain ⟨⟨front, ev, htr, hevc, hcnt⟩, hcl⟩ :=
        runCommand_terminal_shape env
          (storeCommand st (generateCommandID cn t sid)
            (if rt ≠ "" && !cfg.ignoreTarget then cfg.template ++ " " ++ rt
             else cfg.template))
          (generateCommandID cn t sid)
          (if rt ≠ "" && !cfg.ignoreTarget then cfg.template ++ " " ++ rt
           else cfg.template) hc2
      refine ⟨⟨front, ev, ?_, hevc, hcnt⟩, ?_⟩
      · simpa [invocationModel, executeModel, hm, hr] using htr
      · simp only [invocationModel, executeModel, hm, hr, hsp]
        simpa using hcl

/-- C4 witness: a concrete spawned invocation whose trace ends with its
single terminal event and whose channel is closed. -/
theorem invocation_terminal_wit :
    (∃ front ev,
        (invocationModel demoCommands "ping" "1.1.1.1" "s" "auto" demoOracle emptyExecState
          demoRunEnv).trace = front ++ [ev]
        ∧ ev.isComplete = true ∧ front.countP (fun o => o.isComplete) = 0)
    ∧ (invocationModel demoCommands "ping" "1.1.1.1" "s" "auto" demoOracle emptyExecState
        demoRunEnv).closed
        = (executeModel demoCommands "ping" "1.1.1.1" "s" "auto" demoOracle
            emptyExecState).spawned.isSome :=
  invocation_terminal demoCommands "ping" "1.1.1.1" "s" "auto" demoOracle emptyExecState
    demoRunEnv
    (by
      intro fc hfc
      have h2 : some "ping -c 4 1.1.1.1" = some fc := hfc
      injection h2 with h3
      rw [← h3]
      decide)

end YALS.Claims

